import Mathlib

/-!
# Verification of the maua repository's training-pipeline specification

Shallow embedding of the two source files `src/models/proGAN.py` and
`src/neural_style/multiscale.py`.  Python floats are modelled as exact
rationals (`ℚ`) where only field arithmetic occurs, and as reals (`ℝ`)
where a fractional power (`**`) is taken.  Python exceptions are modelled
with `Except`.  Mutable objects (model parameters, optimizer attributes,
the tensors of the multiscale loop) are modelled by explicit state passing.
-/

namespace Maua

/-- Python exceptions that the embedded code can raise. -/
inductive PyErr where
  | valueError (msg : String)
  | zeroDivisionError
  deriving DecidableEq

/-! ## ProGAN.update_average (src/models/proGAN.py lines 107-128)

A model's parameters are an association list from parameter names to
values, mirroring `model.named_parameters()`.  `update_average(model_tgt,
model_src, beta)` iterates over the target's named parameters and executes
`p_tgt.copy_(beta * p_tgt + (1. - beta) * p_src)`, looking `p_src` up in
`param_dict_src = dict(model_src.named_parameters())` (a missing target
name would be a `KeyError`, modelled as `none`).  The `copy_` writes only
the target parameter cell; the `assert (p_src is not p_tgt)` in the source
guarantees the write never aliases a source parameter, so the source
model's parameter list is returned unchanged as the second component.
The surrounding `set_requires_grad` calls toggle gradient flags only and
touch no parameter values. -/

abbrev Params := List (String × ℚ)

def update_average : Params → Params → ℚ → Option (Params × Params)
  | [], src, _ => some ([], src)
  | (n, v) :: rest, src, beta =>
    match List.lookup n src, update_average rest src beta with
    | some vs, some (rest', _) => some ((n, beta * v + (1 - beta) * vs) :: rest', src)
    | _, _ => none

/-! ## ProGAN.train stage resolution (src/models/proGAN.py line 245)

Inside the outer loop `for depth in range(start_depth, ...)` the code sets
`current_res = 2**(depth + 2)`. -/

def current_res (depth : ℕ) : ℕ := 2 ^ (depth + 2)

/-! ## ProGAN.train fade-in coefficient (src/models/proGAN.py line 258)

Inside the epoch loop the code sets
`alpha = min(e / (num_epochs * fade_in), 1)`, with `e` the in-stage epoch
counter, `num_epochs` the epochs per depth stage and `fade_in` the fraction
of a stage spent fading in.  Float arithmetic is modelled exactly on `ℚ`. -/

def fade_in_alpha (num_epochs : ℕ) (fade_in : ℚ) (e : ℕ) : ℚ :=
  min ((e : ℚ) / ((num_epochs : ℚ) * fade_in)) 1

/-! ## ProGAN.setup_loss (src/models/proGAN.py lines 80-103)

The method matches a lowercased string against seven literals, each branch
constructing a `GANLoss` subclass instance from `self.device`, `self.D`
and `self.drift` (all read-only accesses); a non-matching string raises
`ValueError("Unknown loss function requested")`, and a non-string argument
that is not already a `GANLoss` instance raises
`ValueError("loss is neither an instance of GANLoss nor a string")`.
The method body contains no assignment to `self`, which the embedding
records by returning the `ProGANState` unchanged alongside the result. -/

/-- Values of type `GANLoss`: the seven constructible subclasses
(with the constructor arguments that distinguish them) plus arbitrary
pre-existing instances passed in by the caller. -/
inductive GANLossV where
  | WGAN_GP (drift : ℚ) (use_gp : Bool)
  | LSGAN
  | LSGAN_SIGMOID
  | HingeLoss
  | RelativisticAverageHinge
  | R1Regularized
  | preexisting (id : ℕ)
  deriving DecidableEq

/-- Python's `str.lower()` (src line 82: `loss = loss.lower()`), character
by character; on the ASCII strings involved here it agrees with Unicode
lowercasing. -/
def py_str_lower (s : String) : String := ⟨s.data.map Char.toLower⟩

/-- The dynamic type of the Python `loss` argument: a string, an object
that is an instance of `GANLoss`, or any other object. -/
inductive LossInput where
  | str (s : String)
  | ganloss (g : GANLossV)
  | other
  deriving DecidableEq

/-- Adam optimizer objects, as far as the repository touches them: the
learning rate stored in `param_groups` at construction (`Adam(..., lr=lr)`),
which is what `Adam.step` reads, and a plain Python attribute `lr` that
line 252 of `proGAN.py` later assigns with `setattr` semantics.  A freshly
constructed `torch.optim.Adam` has no plain `lr` attribute, modelled as
`none`. -/
structure AdamOpt where
  param_group_lr : ℚ
  attr_lr : Option ℚ
  deriving DecidableEq

/-- `Adam(params, lr=learning_rate, betas=..., eps=...)`
(src/models/proGAN.py lines 63-64): the learning rate goes into
`param_groups`; no plain `lr` attribute exists on the object. -/
def Adam.make (lr : ℚ) : AdamOpt := ⟨lr, none⟩

/-- The step size `torch.optim.Adam.step` actually uses: it iterates over
`self.param_groups` and reads `group['lr']`; a plain attribute named `lr`
is never consulted by the framework. -/
def adam_effective_lr (o : AdamOpt) : ℚ := o.param_group_lr

/-- The mutable object state of a `ProGAN` instance that the embedded
methods read or write. -/
structure ProGANState where
  default_rate : ℚ
  G_optim : AdamOpt
  D_optim : AdamOpt
  drift : ℚ
  deriving DecidableEq

/-- The constructor fragment at src/models/proGAN.py lines 49 and 62-64:
`self.drift = drift`, `self.default_rate = learning_rate`, and the two
Adam constructions with `lr=learning_rate`. -/
def progan_init (learning_rate drift : ℚ) : ProGANState :=
  { default_rate := learning_rate
    G_optim := Adam.make learning_rate
    D_optim := Adam.make learning_rate
    drift := drift }

def setup_loss (st : ProGANState) : LossInput → Except PyErr GANLossV × ProGANState
  | .str s =>
    let t := py_str_lower s
    if t = "wgan" then (.ok (.WGAN_GP st.drift false), st)
    else if t = "wgan-gp" then (.ok (.WGAN_GP st.drift true), st)
    else if t = "lsgan" then (.ok .LSGAN, st)
    else if t = "lsgan-sig" then (.ok .LSGAN_SIGMOID, st)
    else if t = "hinge" then (.ok .HingeLoss, st)
    else if t = "rel-avg" then (.ok .RelativisticAverageHinge, st)
    else if t = "r1-reg" then (.ok .R1Regularized, st)
    else (.error (.valueError "Unknown loss function requested"), st)
  | .ganloss g => (.ok g, st)
  | .other => (.error (.valueError "loss is neither an instance of GANLoss nor a string"), st)

/-- The seven strings accepted by `setup_loss` after lowercasing. -/
def validLossStrings : List String :=
  ["wgan", "wgan-gp", "lsgan", "lsgan-sig", "hinge", "rel-avg", "r1-reg"]

/-! ## ProGAN.train per-resolution learning-rate update
(src/models/proGAN.py lines 251-252)

`learning_rate = learning_rates_dict.get(current_res, self.default_rate)`
followed by `self.D_optim.lr = self.G_optim.lr = learning_rate`.  The
chained assignment binds a plain attribute named `lr` on each optimizer
object; it does not touch `param_groups`. -/

def set_lr_attr (o : AdamOpt) (v : ℚ) : AdamOpt := { o with attr_lr := some v }

def train_lr_update (st : ProGANState) (rates : List (ℕ × ℚ)) (res : ℕ) : ProGANState :=
  let learning_rate := (List.lookup res rates).getD st.default_rate
  { st with G_optim := set_lr_attr st.G_optim learning_rate
            D_optim := set_lr_attr st.D_optim learning_rate }

/-- The learning-rate updates performed across the whole depth loop, one
per visited resolution. -/
def train_lr_loop (st : ProGANState) (rates : List (ℕ × ℚ)) (resolutions : List ℕ) : ProGANState :=
  resolutions.foldl (fun s r => train_lr_update s rates r) st

/-! ## ProGAN.train checkpoint schedule
(src/models/proGAN.py lines 222-223, 244, 254, 302-308)

The global counter `epoch` starts at 1 (line 222, which unconditionally
overwrites the `start_epoch` argument for a fresh run) and is incremented
once per inner-loop iteration (line 305).  A fresh (`continue_train=False`,
`until_depth=None`) run executes `self.depth - start_depth` depth stages of
`num_epochs` epochs each, so the executed global epochs are
`1, 2, ..., (self.depth - start_depth) * num_epochs`.  At the end of each
epoch, lines 302-303 run
`if epoch % save_freq == 0 or epoch == total_epochs: self.save_networks(epoch)`
with `total_epochs = num_epochs * self.depth` (line 223), and after the
depth loop line 308 runs `self.save_networks("final")`.  No other statement
of `train` calls `save_networks`. -/

inductive SaveEvent where
  | ckpt (epoch : ℕ)
  | final
  deriving DecidableEq

/-- The checkpoint saves issued by one execution of the epoch body
(lines 302-303). -/
def epoch_saves (save_freq total_epochs epoch : ℕ) : List SaveEvent :=
  if epoch % save_freq = 0 ∨ epoch = total_epochs then [SaveEvent.ckpt epoch] else []

/-- The global epochs executed by a fresh run. -/
def executed_epochs (start_depth self_depth num_epochs : ℕ) : List ℕ :=
  List.range' 1 ((self_depth - start_depth) * num_epochs)

/-- The full sequence of `save_networks` calls issued by `ProGAN.train`
on a fresh run, in order. -/
def train_saves (start_depth self_depth num_epochs save_freq : ℕ) : List SaveEvent :=
  (List.map (epoch_saves save_freq (num_epochs * self_depth))
      (executed_epochs start_depth self_depth num_epochs)).flatten
    ++ [SaveEvent.final]

/-! ## MultiscaleStyle.run sizes (src/neural_style/multiscale.py lines 52-56)

`scale_factor = (self.image_size / self.start_size)**(1.0/(self.steps - 1))`
and, for each `scale` in `range(self.steps)`:
`current_size = self.image_size`, then
`for s in range(self.steps - 1 - scale): current_size /= scale_factor`,
then `current_size = round(current_size)`.  Float arithmetic is modelled
exactly on `ℝ` (the fractional power is `Real.rpow`), and Python's `round`
by Mathlib's `round`; no value below is ever a half-integer tie, so the
difference in tie-breaking between the two is immaterial. -/

noncomputable def ms_scale_factor (image_size start_size steps : ℕ) : ℝ :=
  ((image_size : ℝ) / (start_size : ℝ)) ^ ((1 : ℝ) / ((steps : ℝ) - 1))

/-- The inner `for s in range(n): current_size /= scale_factor` loop. -/
noncomputable def ms_div_loop (x sf : ℝ) : ℕ → ℝ
  | 0 => x
  | n + 1 => ms_div_loop (x / sf) sf n

/-- The rounded styling size used at scale `k` (0-indexed). -/
noncomputable def ms_size (image_size start_size steps k : ℕ) : ℤ :=
  round (ms_div_loop (image_size : ℝ) (ms_scale_factor image_size start_size steps)
    (steps - 1 - k))

/-! ## MultiscaleStyle.run scale-factor exceptions
(src/neural_style/multiscale.py line 52)

`scale_factor = (self.image_size / self.start_size)**(1.0/(self.steps - 1))`.
Python raises `ZeroDivisionError` on `x / 0` (also for floats), and the
float power `b ** e` raises `ZeroDivisionError` exactly when `b` is `0.0`
and `e` is negative; it raises nothing otherwise (`0.0 ** 0.0` is `1.0`,
and a negative base with a non-integral exponent yields a complex number in
Python 3, not an exception).  `steps` is a Python `int`, modelled as `ℤ`.
On success the model returns the `(base, exponent)` pair that fed `**`
(the power's value itself is irrational in general and irrelevant to the
error behaviour of line 52). -/

def pyFloatDiv (a b : ℚ) : Except PyErr ℚ :=
  if b = 0 then .error .zeroDivisionError else .ok (a / b)

def ms_scale_factor_comp (image_size start_size : ℚ) (steps : ℤ) :
    Except PyErr (ℚ × ℚ) := do
  let ratio ← pyFloatDiv image_size start_size
  let expo ← pyFloatDiv 1 ((steps : ℚ) - 1)
  if ratio = 0 ∧ expo < 0 then Except.error PyErr.zeroDivisionError
  else return (ratio, expo)

/-! ## MultiscaleStyle.run tensor dataflow
(src/neural_style/multiscale.py lines 44-116)

The tensors flowing through the scale loop are modelled as a free algebra:
each framework call that produces a tensor is a constructor.  `optimized
scale seed` stands for the tensor cell that entered the optimizer loop of
iteration `scale` holding `seed` and was mutated in place by the
`optimizer.step(feval)` calls until the loop finished. -/

inductive Tensor where
  | contentFinal
  | randInit
  | initImage
  | styleAt (scale : ℕ)
  | interp (t : Tensor) (size : ℤ)
  | matchColor (t ref : Tensor)
  | optimized (scale : ℕ) (seed : Tensor)
  deriving DecidableEq

/-- The tensor-valued local variables of `MultiscaleStyle.run`:  `init`,
`img` (unbound before the first scale iteration) and `init_image` (the
variable assigned on line 114 and never read). -/
structure MSVars where
  init : Tensor
  img : Option Tensor
  init_image : Option Tensor
  deriving DecidableEq

/-- One iteration of `for scale in range(self.steps)` (lines 53-114),
restricted to the tensor-valued variables.  Line 61 resizes `init` to the
current size and line 62 colour-matches it to `styles[0]` (the style set
recomputed for this scale on line 59).  Line 88, `img =
init.requires_grad_()`, binds `img` to the *same* tensor object as `init`
(`requires_grad_` is in place and returns its receiver), and the
`optimizer.step(feval)` loop of lines 110-112 mutates that shared object
in place; hence when the body ends, both `init` and `img` hold the
optimized tensor.  Line 114 computes `match_color(img, styles[0])` but
binds it to the fresh name `init_image`, which no later statement reads. -/
def ms_scale_body (scale : ℕ) (size : ℤ) (st : MSVars) : MSVars :=
  let style0 := Tensor.styleAt scale
  let handed := Tensor.matchColor (Tensor.interp st.init size) style0
  let img := Tensor.optimized scale handed
  { init := img, img := some img, init_image := some (Tensor.matchColor img style0) }

/-- The variable state entering scale iteration `k`, starting from the
initial `init` tensor of lines 46-50 (`sizes k` is the rounded styling
size of scale `k`). -/
def ms_run_state (init0 : Tensor) (sizes : ℕ → ℤ) : ℕ → MSVars
  | 0 => ⟨init0, none, none⟩
  | k + 1 => ms_scale_body k (sizes k) (ms_run_state init0 sizes k)

/-- The tensor handed to the optimizer at scale `k`: the value of `img`
(= `init`) on line 88, i.e. `init` after the resize of line 61 and the
colour-match of line 62. -/
def ms_handed (init0 : Tensor) (sizes : ℕ → ℤ) (k : ℕ) : Tensor :=
  Tensor.matchColor (Tensor.interp (ms_run_state init0 sizes k).init (sizes k))
    (Tensor.styleAt k)

/-! ## Theorems -/

/-- **C1.** For every pair of models whose named parameters coincide and every
decay value `beta`, `ProGAN.update_average(model_tgt, model_src, beta)` sets
each target parameter `p_tgt` to `beta * p_tgt + (1 - beta) * p_src` (the
exponential-moving-average step) while leaving the source model's parameters
unchanged; in particular with `beta = 0` (the constructor's call) the target's
parameters become equal to the source's. -/
theorem update_average_ema (tgt src : Params) (beta : ℚ)
    (hnames : ∀ n ∈ tgt.map Prod.fst, (List.lookup n src).isSome = true) :
    ∃ tgt', update_average tgt src beta = some (tgt', src) ∧
      tgt'.map Prod.fst = tgt.map Prod.fst ∧
      (∀ n v w, List.lookup n tgt = some v → List.lookup n src = some w →
        List.lookup n tgt' = some (beta * v + (1 - beta) * w)) ∧
      (beta = 0 → ∀ n v w, List.lookup n tgt = some v → List.lookup n src = some w →
        List.lookup n tgt' = some w) := by
  induction tgt with
  | nil =>
    refine ⟨[], rfl, rfl, ?_, ?_⟩
    · intro n v w hv
      simp [List.lookup] at hv
    · intro _ n v w hv
      simp [List.lookup] at hv
  | cons p rest ih =>
    obtain ⟨n, v⟩ := p
    have hn : (List.lookup n src).isSome = true := hnames n (by simp)
    obtain ⟨vs, hvs⟩ := Option.isSome_iff_exists.mp hn
    obtain ⟨rest', hrec, hmap, hform, -⟩ := ih (fun m hm => hnames m (by simp; right; simpa using hm))
    have hthird : ∀ m v' w, List.lookup m ((n, v) :: rest) = some v' →
        List.lookup m src = some w →
        List.lookup m ((n, beta * v + (1 - beta) * vs) :: rest') =
          some (beta * v' + (1 - beta) * w) := by
      intro m v' w hv' hw
      by_cases hmn : m = n
      · subst hmn
        simp [List.lookup] at hv' ⊢
        rw [hw] at hvs
        simp [hv', Option.some_inj.mp hvs]
      · have hbeq : (m == n) = false := beq_eq_false_iff_ne.mpr hmn
        simp [List.lookup, hbeq] at hv' ⊢
        exact hform m v' w hv' hw
    refine ⟨(n, beta * v + (1 - beta) * vs) :: rest', ?_, ?_, hthird, ?_⟩
    · simp [update_average, hvs, hrec]
    · simp [hmap]
    · intro hb m v' w hv' hw
      subst hb
      have h := hthird m v' w hv' hw
      simpa using h

/-- Witness for C1 at a concrete input. -/
theorem update_average_ema_witness :
    ∃ tgt', update_average [("w", (3 : ℚ))] [("w", (5 : ℚ))] (1 / 2) =
        some (tgt', [("w", 5)]) ∧
      tgt'.map Prod.fst = [("w", (3 : ℚ))].map Prod.fst ∧
      (∀ n v w, List.lookup n [("w", (3 : ℚ))] = some v →
        List.lookup n [("w", (5 : ℚ))] = some w →
        List.lookup n tgt' = some (1 / 2 * v + (1 - 1 / 2) * w)) ∧
      ((1 / 2 : ℚ) = 0 → ∀ n v w, List.lookup n [("w", (3 : ℚ))] = some v →
        List.lookup n [("w", (5 : ℚ))] = some w → List.lookup n tgt' = some w) :=
  update_average_ema [("w", 3)] [("w", 5)] (1 / 2) (by decide)

/-- **C2.** In `ProGAN.train`, the image resolution trained at depth stage `d`
is `2^(d+2)`; consecutive stages double the resolution, and resolution is
strictly increasing across stages. -/
theorem current_res_doubles :
    StrictMono current_res ∧
    ∀ d : ℕ, current_res d = 2 ^ (d + 2) ∧ current_res (d + 1) = 2 * current_res d := by
  constructor
  · intro a b hab
    exact Nat.pow_lt_pow_right (by norm_num) (by omega)
  · intro d
    refine ⟨rfl, ?_⟩
    show 2 ^ (d + 1 + 2) = 2 * 2 ^ (d + 2)
    ring

/-- Witness for C2 at a concrete input. -/
theorem current_res_doubles_witness :
    current_res 3 = 2 ^ (3 + 2) ∧ current_res 4 = 2 * current_res 3 ∧
    current_res 3 < current_res 4 :=
  ⟨(current_res_doubles.2 3).1, (current_res_doubles.2 3).2,
   current_res_doubles.1 (by omega)⟩

/-- **C3.** In every depth stage of `ProGAN.train` with `fade_in ∈ (0, 1]` and
`num_epochs ≥ 1`, the fade-in coefficient for epoch `e` equals
`min (e / (num_epochs * fade_in)) 1`; for every epoch `e ≥ 1` it is strictly
positive, at most 1, non-decreasing in `e`, and exactly 1 whenever
`num_epochs * fade_in ≤ e`. -/
theorem fade_in_alpha_props (num_epochs : ℕ) (fade_in : ℚ) (e : ℕ)
    (hf0 : 0 < fade_in) (hf1 : fade_in ≤ 1) (hN : 1 ≤ num_epochs) (he : 1 ≤ e) :
    fade_in_alpha num_epochs fade_in e = min ((e : ℚ) / ((num_epochs : ℚ) * fade_in)) 1 ∧
    0 < fade_in_alpha num_epochs fade_in e ∧
    fade_in_alpha num_epochs fade_in e ≤ 1 ∧
    (∀ e', e ≤ e' → fade_in_alpha num_epochs fade_in e ≤ fade_in_alpha num_epochs fade_in e') ∧
    ((num_epochs : ℚ) * fade_in ≤ (e : ℚ) → fade_in_alpha num_epochs fade_in e = 1) := by
  have hD : 0 < (num_epochs : ℚ) * fade_in := by
    have hN' : (0 : ℚ) < (num_epochs : ℚ) := by exact_mod_cast Nat.lt_of_lt_of_le Nat.zero_lt_one hN
    exact mul_pos hN' hf0
  refine ⟨rfl, ?_, min_le_right _ _, ?_, ?_⟩
  · have he' : (0 : ℚ) < (e : ℚ) := by exact_mod_cast Nat.lt_of_lt_of_le Nat.zero_lt_one he
    exact lt_min (div_pos he' hD) one_pos
  · intro e' hee
    have : (e : ℚ) / ((num_epochs : ℚ) * fade_in) ≤ (e' : ℚ) / ((num_epochs : ℚ) * fade_in) := by
      apply div_le_div_of_nonneg_right ?_ hD.le
      exact_mod_cast hee
    exact min_le_min this le_rfl
  · intro hle
    have h1 : (1 : ℚ) ≤ (e : ℚ) / ((num_epochs : ℚ) * fade_in) := (one_le_div hD).mpr hle
    exact min_eq_right h1

/-- Witness for C3 at a concrete input. -/
theorem fade_in_alpha_props_witness :
    fade_in_alpha 50 (1 / 2) 25 = min ((25 : ℚ) / ((50 : ℚ) * (1 / 2))) 1 ∧
    0 < fade_in_alpha 50 (1 / 2) 25 ∧
    fade_in_alpha 50 (1 / 2) 25 ≤ 1 ∧
    (∀ e', 25 ≤ e' → fade_in_alpha 50 (1 / 2) 25 ≤ fade_in_alpha 50 (1 / 2) e') ∧
    ((50 : ℚ) * (1 / 2) ≤ (25 : ℚ) → fade_in_alpha 50 (1 / 2) 25 = 1) :=
  fade_in_alpha_props 50 (1 / 2) 25 one_half_pos one_half_lt_one.le (by decide) (by decide)

/-- **C5.** In `MultiscaleStyle.run`, for every scale after the first, the
image tensor handed to the optimizer is the image produced by the previous
scale's optimization, resized (interpolated) to the current scale's size and
colour-matched to the first style image: each coarser scale's optimized
result seeds the next finer scale. -/
theorem ms_handed_seeded (init0 : Tensor) (sizes : ℕ → ℤ) (k : ℕ) (hk : 1 ≤ k) :
    ms_handed init0 sizes k =
      Tensor.matchColor
        (Tensor.interp (Tensor.optimized (k - 1) (ms_handed init0 sizes (k - 1))) (sizes k))
        (Tensor.styleAt k) := by
  obtain ⟨j, rfl⟩ : ∃ j, k = j + 1 := ⟨k - 1, by omega⟩
  simp [ms_handed, ms_run_state, ms_scale_body]

/-- Witness for C5 at a concrete input. -/
theorem ms_handed_seeded_witness :
    ms_handed Tensor.randInit (fun n => (n : ℤ)) 1 =
      Tensor.matchColor
        (Tensor.interp
          (Tensor.optimized 0 (ms_handed Tensor.randInit (fun n => (n : ℤ)) 0)) 1)
        (Tensor.styleAt 1) :=
  ms_handed_seeded Tensor.randInit (fun n => (n : ℤ)) 1 (by decide)

/-- Helper: the depth loop's learning-rate updates never touch the learning
rate stored in the optimizers' parameter groups. -/
theorem train_lr_loop_preserves_param_groups (rates : List (ℕ × ℚ)) :
    ∀ (l : List ℕ) (st : ProGANState),
      (train_lr_loop st rates l).G_optim.param_group_lr = st.G_optim.param_group_lr ∧
      (train_lr_loop st rates l).D_optim.param_group_lr = st.D_optim.param_group_lr := by
  intro l
  induction l with
  | nil => exact fun st => ⟨rfl, rfl⟩
  | cons r l ih =>
    intro st
    have h := ih (train_lr_update st rates r)
    exact ⟨h.1, h.2⟩

/-- **C8.** In `ProGAN.train`, the per-resolution learning-rate update assigns
an `lr` attribute on the two Adam optimizer objects but leaves the learning
rate stored in their parameter groups unchanged, so the effective Adam step
size at every resolution remains the constructor's `learning_rate` regardless
of the `learning_rates_dict` argument. -/
theorem train_lr_update_frame (lr0 drift : ℚ) (rates : List (ℕ × ℚ)) (ress : List ℕ)
    (s : ProGANState) (r : ℕ) :
    (train_lr_update s rates r).G_optim.attr_lr =
        some ((List.lookup r rates).getD s.default_rate) ∧
    (train_lr_update s rates r).D_optim.attr_lr =
        some ((List.lookup r rates).getD s.default_rate) ∧
    (train_lr_update s rates r).G_optim.param_group_lr = s.G_optim.param_group_lr ∧
    (train_lr_update s rates r).D_optim.param_group_lr = s.D_optim.param_group_lr ∧
    adam_effective_lr (train_lr_loop (progan_init lr0 drift) rates ress).G_optim = lr0 ∧
    adam_effective_lr (train_lr_loop (progan_init lr0 drift) rates ress).D_optim = lr0 := by
  have h := train_lr_loop_preserves_param_groups rates ress (progan_init lr0 drift)
  exact ⟨rfl, rfl, rfl, rfl, h.1, h.2⟩

/-- **C7.** `ProGAN.setup_loss` returns a `GANLoss` instance exactly for the
seven accepted strings (matched case-insensitively) and for arguments already
of type `GANLoss` (returned unchanged), raises `ValueError` for every other
input, and leaves the object state unchanged in all cases. -/
theorem setup_loss_cases (st : ProGANState) :
    (∀ g, setup_loss st (.ganloss g) = (.ok g, st)) ∧
    (setup_loss st .other =
      (.error (.valueError "loss is neither an instance of GANLoss nor a string"), st)) ∧
    (∀ s : String,
      (py_str_lower s ∈ validLossStrings → ∃ g, setup_loss st (.str s) = (.ok g, st)) ∧
      (py_str_lower s ∉ validLossStrings →
        setup_loss st (.str s) =
          (.error (.valueError "Unknown loss function requested"), st))) := by
  refine ⟨fun g => rfl, rfl, ?_⟩
  intro s
  constructor
  · intro hmem
    simp only [validLossStrings, List.mem_cons, List.not_mem_nil, or_false] at hmem
    rcases hmem with h | h | h | h | h | h | h
    · exact ⟨.WGAN_GP st.drift false, by simp [setup_loss, h]⟩
    · exact ⟨.WGAN_GP st.drift true, by simp [setup_loss, h]⟩
    · exact ⟨.LSGAN, by simp [setup_loss, h]⟩
    · exact ⟨.LSGAN_SIGMOID, by simp [setup_loss, h]⟩
    · exact ⟨.HingeLoss, by simp [setup_loss, h]⟩
    · exact ⟨.RelativisticAverageHinge, by simp [setup_loss, h]⟩
    · exact ⟨.R1Regularized, by simp [setup_loss, h]⟩
  · intro hmem
    simp only [validLossStrings, List.mem_cons, List.not_mem_nil, or_false, not_or] at hmem
    obtain ⟨h1, h2, h3, h4, h5, h6, h7⟩ := hmem
    simp [setup_loss, h1, h2, h3, h4, h5, h6, h7]

/-- Witness for C7 at a concrete input. -/
theorem setup_loss_cases_witness :
    (∃ g, setup_loss (progan_init 1 0) (.str "WGAN-GP") = (.ok g, progan_init 1 0)) ∧
    setup_loss (progan_init 1 0) (.str "mse") =
      (.error (.valueError "Unknown loss function requested"), progan_init 1 0) :=
  ⟨((setup_loss_cases (progan_init 1 0)).2.2 "WGAN-GP").1 (by decide),
   ((setup_loss_cases (progan_init 1 0)).2.2 "mse").2 (by decide)⟩

/-- Helper: on nonzero `start_size` and `steps ≠ 1`, line 52 reduces to the
`0.0 ** negative` check on the `(base, exponent)` pair of the power. -/
theorem ms_scale_factor_comp_reduce (I S : ℚ) (steps : ℤ) (hS : S ≠ 0)
    (h2 : ((steps : ℚ) - 1) ≠ 0) :
    ms_scale_factor_comp I S steps =
      if I / S = 0 ∧ 1 / ((steps : ℚ) - 1) < 0 then Except.error PyErr.zeroDivisionError
      else Except.ok (I / S, 1 / ((steps : ℚ) - 1)) := by
  simp only [ms_scale_factor_comp, pyFloatDiv, if_neg hS, if_neg h2]
  rfl

/-- **C9 (amended).** Line 52 of `MultiscaleStyle.run` raises
`ZeroDivisionError` when `steps = 1` (even when `start_size = image_size`),
but `steps ≥ 2` is not necessary for `run` to proceed past the scale-factor
computation: for `start_size ≠ 0` line 52 always succeeds when `steps ≥ 2`,
and it also succeeds for every `steps ≤ 0` with `image_size ≠ 0`, while
`image_size = 0` with `steps ≤ 0` raises `ZeroDivisionError` again
(`0.0 ** negative`). -/
theorem ms_scale_factor_comp_zero_div (I S : ℚ) (steps : ℤ) (hS : S ≠ 0) :
    (steps = 1 → ms_scale_factor_comp I S steps = .error .zeroDivisionError) ∧
    (2 ≤ steps → ms_scale_factor_comp I S steps = .ok (I / S, 1 / ((steps : ℚ) - 1))) ∧
    (steps ≤ 0 → I ≠ 0 →
      ms_scale_factor_comp I S steps = .ok (I / S, 1 / ((steps : ℚ) - 1))) ∧
    (steps ≤ 0 → I = 0 →
      ms_scale_factor_comp I S steps = .error .zeroDivisionError) := by
  refine ⟨?_, ?_, ?_, ?_⟩
  · rintro rfl
    have hc : (((1 : ℤ) : ℚ) - 1) = 0 := by norm_num
    simp only [ms_scale_factor_comp, pyFloatDiv, if_neg hS, if_pos hc]
    rfl
  · intro h
    have h2' : (2 : ℚ) ≤ (steps : ℚ) := by exact_mod_cast h
    have h2 : ((steps : ℚ) - 1) ≠ 0 := by linarith
    have hpos : 0 < 1 / ((steps : ℚ) - 1) := by
      apply div_pos one_pos
      linarith
    rw [ms_scale_factor_comp_reduce I S steps hS h2,
      if_neg (fun hc => absurd hc.2 (not_lt.mpr hpos.le))]
  · intro h hI
    have h0 : (steps : ℚ) ≤ 0 := by exact_mod_cast h
    have h2 : ((steps : ℚ) - 1) ≠ 0 := by linarith
    rw [ms_scale_factor_comp_reduce I S steps hS h2,
      if_neg (fun hc => absurd hc.1 (div_ne_zero hI hS))]
  · rintro h rfl
    have h0 : (steps : ℚ) ≤ 0 := by exact_mod_cast h
    have h2 : ((steps : ℚ) - 1) ≠ 0 := by linarith
    have hneg : 1 / ((steps : ℚ) - 1) < 0 := by
      apply div_neg_of_pos_of_neg one_pos
      linarith
    rw [ms_scale_factor_comp_reduce 0 S steps hS h2, if_pos ⟨zero_div S, hneg⟩]

/-- Witness for C9 (amended) at a concrete input. -/
theorem ms_scale_factor_comp_zero_div_witness :
    ((1 : ℤ) = 1 → ms_scale_factor_comp 512 512 1 = .error .zeroDivisionError) ∧
    (2 ≤ (1 : ℤ) →
      ms_scale_factor_comp 512 512 1 = .ok (512 / 512, 1 / (((1 : ℤ) : ℚ) - 1))) ∧
    ((1 : ℤ) ≤ 0 → (512 : ℚ) ≠ 0 →
      ms_scale_factor_comp 512 512 1 = .ok (512 / 512, 1 / (((1 : ℤ) : ℚ) - 1))) ∧
    ((1 : ℤ) ≤ 0 → (512 : ℚ) = 0 →
      ms_scale_factor_comp 512 512 1 = .error .zeroDivisionError) :=
  ms_scale_factor_comp_zero_div 512 512 1 (by simp)

/-- Counterexample to C9 as stated: with `steps = 0` (and equal positive
sizes) the scale-factor computation raises nothing — the base is `1.0` and
the exponent `1.0 / (-1)` — so `run` proceeds past it although
`steps < 2`. -/
theorem ms_scale_factor_comp_steps_zero :
    ms_scale_factor_comp 512 512 0 = .ok (1, -1) ∧ ¬ (2 ≤ (0 : ℤ)) := by
  constructor
  · rw [ms_scale_factor_comp_reduce 512 512 0 (by norm_num) (by norm_num),
      if_neg (by norm_num)]
    norm_num
  · decide

/-- **C6.** In `ProGAN.train` (fresh run), a checkpoint is saved via
`save_networks(epoch)` exactly for those executed global epochs with
`epoch % save_freq == 0` or `epoch == total_epochs`
(`total_epochs = num_epochs * self.depth`), `save_networks("final")` is
called exactly once, after the depth loop, and no checkpoint is saved at any
other point during training. -/
theorem train_saves_spec (start_depth self_depth num_epochs save_freq : ℕ)
    (hsf : 1 ≤ save_freq) :
    (∀ e, SaveEvent.ckpt e ∈ train_saves start_depth self_depth num_epochs save_freq ↔
      ((1 ≤ e ∧ e ≤ (self_depth - start_depth) * num_epochs) ∧
        (e % save_freq = 0 ∨ e = num_epochs * self_depth))) ∧
    List.count SaveEvent.final (train_saves start_depth self_depth num_epochs save_freq) = 1 ∧
    (train_saves start_depth self_depth num_epochs save_freq).getLast? =
      some SaveEvent.final := by
  refine ⟨?_, ?_, List.getLast?_concat _⟩
  · intro e
    simp only [train_saves, List.mem_append, List.mem_singleton, List.mem_flatten,
      List.mem_map, executed_epochs]
    constructor
    · rintro (⟨l, ⟨a, ha, rfl⟩, hmem⟩ | hfin)
      · rw [List.mem_range'_1] at ha
        unfold epoch_saves at hmem
        split at hmem
        · next hc =>
            simp only [List.mem_singleton, SaveEvent.ckpt.injEq] at hmem
            subst hmem
            exact ⟨⟨by omega, by omega⟩, hc⟩
        · simp at hmem
      · exact absurd hfin (by simp)
    · rintro ⟨⟨h1, h2⟩, hc⟩
      refine Or.inl ⟨epoch_saves save_freq (num_epochs * self_depth) e, ⟨e, ?_, rfl⟩, ?_⟩
      · rw [List.mem_range'_1]
        omega
      · simp [epoch_saves, hc]
  · rw [train_saves, List.count_append]
    have hz : List.count SaveEvent.final
        ((List.map (epoch_saves save_freq (num_epochs * self_depth))
          (executed_epochs start_depth self_depth num_epochs)).flatten) = 0 := by
      rw [List.count_eq_zero]
      intro hmem
      rw [List.mem_flatten] at hmem
      obtain ⟨l, hl, hfin⟩ := hmem
      rw [List.mem_map] at hl
      obtain ⟨a, -, rfl⟩ := hl
      unfold epoch_saves at hfin
      split at hfin <;> simp at hfin
    rw [hz]
    rfl

/-- Witness for C6 at a concrete input. -/
theorem train_saves_spec_witness :
    (∀ e, SaveEvent.ckpt e ∈ train_saves 1 3 2 2 ↔
      ((1 ≤ e ∧ e ≤ (3 - 1) * 2) ∧ (e % 2 = 0 ∨ e = 2 * 3))) ∧
    List.count SaveEvent.final (train_saves 1 3 2 2) = 1 ∧
    (train_saves 1 3 2 2).getLast? = some SaveEvent.final :=
  train_saves_spec 1 3 2 2 (by decide)

/-- Helper: the inner division loop computes `x / sf ^ n`. -/
theorem ms_div_loop_eq (x sf : ℝ) : ∀ n, ms_div_loop x sf n = x / sf ^ n := by
  intro n
  induction n generalizing x with
  | zero => simp [ms_div_loop]
  | succ n ih =>
    rw [ms_div_loop, ih, div_div, ← pow_succ']

/-- Helper: the scale factor is positive for positive sizes. -/
theorem ms_scale_factor_pos (I S steps : ℕ) (hS : 1 ≤ S) (hI : 1 ≤ I) :
    0 < ms_scale_factor I S steps := by
  apply Real.rpow_pos_of_pos
  have hS' : (0 : ℝ) < (S : ℝ) := by exact_mod_cast Nat.lt_of_lt_of_le Nat.zero_lt_one hS
  have hI' : (0 : ℝ) < (I : ℝ) := by exact_mod_cast Nat.lt_of_lt_of_le Nat.zero_lt_one hI
  exact div_pos hI' hS'

/-- Helper: with `steps ≥ 2` and `start_size ≤ image_size` the scale factor
is at least 1. -/
theorem ms_scale_factor_one_le (I S steps : ℕ) (h2 : 2 ≤ steps) (hS : 1 ≤ S) (hSI : S ≤ I) :
    1 ≤ ms_scale_factor I S steps := by
  apply Real.one_le_rpow
  · have hS' : (0 : ℝ) < (S : ℝ) := by exact_mod_cast Nat.lt_of_lt_of_le Nat.zero_lt_one hS
    rw [one_le_div hS']
    exact_mod_cast hSI
  · have h2' : (2 : ℝ) ≤ (steps : ℝ) := by exact_mod_cast h2
    have : (0 : ℝ) < (steps : ℝ) - 1 := by linarith
    positivity

/-- Helper: raising the scale factor to the `steps - 1` power recovers the
`image_size / start_size` ratio exactly. -/
theorem ms_scale_factor_pow (I S steps : ℕ) (h2 : 2 ≤ steps) (hS : 1 ≤ S) (hI : 1 ≤ I) :
    ms_scale_factor I S steps ^ (steps - 1) = (I : ℝ) / (S : ℝ) := by
  have hm : ((steps : ℝ) - 1) ≠ 0 := by
    have h2' : (2 : ℝ) ≤ (steps : ℝ) := by exact_mod_cast h2
    linarith
  have hx : (0 : ℝ) ≤ (I : ℝ) / (S : ℝ) := by positivity
  have hcast : (((steps - 1 : ℕ)) : ℝ) = (steps : ℝ) - 1 := by
    rw [Nat.cast_sub (by omega : 1 ≤ steps), Nat.cast_one]
  simp only [ms_scale_factor]
  rw [← Real.rpow_natCast (((I : ℝ) / (S : ℝ)) ^ ((1 : ℝ) / ((steps : ℝ) - 1))) (steps - 1),
    hcast, ← Real.rpow_mul hx, one_div_mul_cancel hm, Real.rpow_one]

/-- Helper: closed form of the styling size: the loop divides `image_size`
by the scale factor `steps - 1 - k` times. -/
theorem ms_size_closed (I S steps k : ℕ) :
    ms_size I S steps k =
      round ((I : ℝ) / ms_scale_factor I S steps ^ (steps - 1 - k)) := by
  rw [ms_size, ms_div_loop_eq]

/-- Helper: the first scale's size is exactly `start_size`. -/
theorem ms_size_first (I S steps : ℕ) (h2 : 2 ≤ steps) (hS : 1 ≤ S) (hI : 1 ≤ I) :
    ms_size I S steps 0 = (S : ℤ) := by
  rw [ms_size_closed, Nat.sub_zero, ms_scale_factor_pow I S steps h2 hS hI]
  have hS' : (S : ℝ) ≠ 0 := by
    have := Nat.lt_of_lt_of_le Nat.zero_lt_one hS
    positivity
  have hI' : (I : ℝ) ≠ 0 := by
    have := Nat.lt_of_lt_of_le Nat.zero_lt_one hI
    positivity
  have hv : (I : ℝ) / ((I : ℝ) / (S : ℝ)) = (S : ℝ) := by
    field_simp
  rw [hv, round_natCast]

/-- Helper: the last scale's size is exactly `image_size`. -/
theorem ms_size_last (I S steps : ℕ) : ms_size I S steps (steps - 1) = (I : ℤ) := by
  rw [ms_size_closed, Nat.sub_self, pow_zero, div_one, round_natCast]

/-- Helper: the styling sizes are non-decreasing from coarse to fine. -/
theorem ms_size_mono (I S steps : ℕ) (h2 : 2 ≤ steps) (hS : 1 ≤ S) (hSI : S ≤ I) :
    ∀ k k', k ≤ k' → ms_size I S steps k ≤ ms_size I S steps k' := by
  intro k k' hk
  rw [ms_size_closed, ms_size_closed]
  have hI : 1 ≤ I := le_trans hS hSI
  have hsf1 : 1 ≤ ms_scale_factor I S steps := ms_scale_factor_one_le I S steps h2 hS hSI
  have hsfpos : 0 < ms_scale_factor I S steps := lt_of_lt_of_le one_pos hsf1
  have hexp : steps - 1 - k' ≤ steps - 1 - k := by omega
  have hpowle : ms_scale_factor I S steps ^ (steps - 1 - k') ≤
      ms_scale_factor I S steps ^ (steps - 1 - k) := pow_le_pow_right₀ hsf1 hexp
  have hpk : 0 < ms_scale_factor I S steps ^ (steps - 1 - k) := pow_pos hsfpos _
  have hpk' : 0 < ms_scale_factor I S steps ^ (steps - 1 - k') := pow_pos hsfpos _
  have hIpos : (0 : ℝ) < (I : ℝ) := by exact_mod_cast Nat.lt_of_lt_of_le Nat.zero_lt_one hI
  have hdiv : (I : ℝ) / ms_scale_factor I S steps ^ (steps - 1 - k) ≤
      (I : ℝ) / ms_scale_factor I S steps ^ (steps - 1 - k') :=
    (div_le_div_iff_of_pos_left hIpos hpk hpk').mpr hpowle
  rw [round_eq, round_eq]
  exact Int.floor_le_floor (by linarith)

/-- **C4 (amended).** In `MultiscaleStyle.run` with `steps ≥ 2`,
`1 ≤ start_size ≤ image_size`, the styling size at scale `k` is
`round(image_size / scale_factor^(steps-1-k))` with
`scale_factor = (image_size / start_size)^(1/(steps-1))`; the first scale's
size equals `start_size` exactly, the last scale's size equals `image_size`
exactly, and the sizes are non-decreasing from coarse to fine (rounding can
make consecutive sizes equal, so they need not strictly increase). -/
theorem ms_size_props (I S steps : ℕ) (h2 : 2 ≤ steps) (hS : 1 ≤ S) (hSI : S ≤ I) :
    (∀ k, ms_size I S steps k =
      round ((I : ℝ) / ms_scale_factor I S steps ^ (steps - 1 - k))) ∧
    ms_size I S steps 0 = (S : ℤ) ∧
    ms_size I S steps (steps - 1) = (I : ℤ) ∧
    (∀ k k', k ≤ k' → ms_size I S steps k ≤ ms_size I S steps k') :=
  ⟨fun k => ms_size_closed I S steps k,
   ms_size_first I S steps h2 hS (le_trans hS hSI),
   ms_size_last I S steps,
   ms_size_mono I S steps h2 hS hSI⟩

/-- Witness for C4 (amended) at a concrete input. -/
theorem ms_size_props_witness :
    (∀ k, ms_size 512 256 2 k =
      round ((512 : ℝ) / ms_scale_factor 512 256 2 ^ (2 - 1 - k))) ∧
    ms_size 512 256 2 0 = ((256 : ℕ) : ℤ) ∧
    ms_size 512 256 2 (2 - 1) = ((512 : ℕ) : ℤ) ∧
    (∀ k k', k ≤ k' → ms_size 512 256 2 k ≤ ms_size 512 256 2 k') :=
  ms_size_props 512 256 2 (by decide) (by decide) (by decide)

/-- Counterexample to C4 as stated: with `image_size = 257 > 256 =
start_size` and `steps = 5` the first two styling sizes are both 256 —
the unrounded sizes `256` and `256 · (257/256)^(1/4) ≈ 256.25` round to the
same integer — so the sizes do not strictly increase even though
`image_size > start_size`. -/
theorem ms_size_not_strict :
    (256 : ℕ) < 257 ∧ ms_size 257 256 5 0 = 256 ∧ ms_size 257 256 5 1 = 256 := by
  refine ⟨by norm_num, ?_, ?_⟩
  · have h := ms_size_first 257 256 5 (by norm_num) (by norm_num) (by norm_num)
    exact_mod_cast h
  · have ht4 : ms_scale_factor 257 256 5 ^ (4 : ℕ) = (257 : ℝ) / 256 := by
      have h := ms_scale_factor_pow 257 256 5 (by norm_num) (by norm_num) (by norm_num)
      norm_num at h
      exact_mod_cast h
    have ht1 : 1 ≤ ms_scale_factor 257 256 5 :=
      ms_scale_factor_one_le 257 256 5 (by norm_num) (by norm_num) (by norm_num)
    have htpos : 0 < ms_scale_factor 257 256 5 := lt_of_lt_of_le one_pos ht1
    have htlt : ms_scale_factor 257 256 5 < 513 / 512 := by
      apply lt_of_pow_lt_pow_left₀ 4 (by norm_num : (0 : ℝ) ≤ 513 / 512)
      rw [ht4]
      norm_num
    have ht3ne : ms_scale_factor 257 256 5 ^ (3 : ℕ) ≠ 0 := by positivity
    have hval : (257 : ℝ) / ms_scale_factor 257 256 5 ^ (3 : ℕ) =
        256 * ms_scale_factor 257 256 5 := by
      rw [div_eq_iff ht3ne]
      have hr : 256 * ms_scale_factor 257 256 5 * ms_scale_factor 257 256 5 ^ (3 : ℕ) =
          256 * ms_scale_factor 257 256 5 ^ (4 : ℕ) := by ring
      rw [hr, ht4]
      norm_num
    have hcl := ms_size_closed 257 256 5 1
    norm_num at hcl
    rw [hcl, hval, round_eq, Int.floor_eq_iff]
    constructor
    · push_cast
      linarith
    · push_cast
      nlinarith [htlt]

end Maua
